import Mathlib

/-!
Verification development for the AI interview coach browser extension.

The embedding covers the two core subsystems:
* `Captions` — the Teams caption aggregator (`CaptionGrabber` in the
  content script): noise filtering, tail-only incremental merge, the
  bounded FIFO transcript buffer and the 90-second windowed read.
* `Background` — the answer-generation pipeline in the background
  worker: settings resolution, the missing-credential gate, best-effort
  RAG retrieval, prompt composition and the five provider adapters.

JS strings are modelled as `List Char` where substring/prefix tests
matter (the aggregator) and as Lean `String` in the pipeline; machine
timestamps are `Int` (so `now - item.time` matches JS subtraction);
similarity scores are `ℚ`; thrown-and-uncaught JS exceptions are the
`Except.error` side of an `Except Fault _`.
-/

namespace Captions

/-- One transcript buffer entry: `{ text, time }` as pushed by
`CaptionGrabber.processText` (`this.buffer.push({text, time: Date.now()})`). -/
structure Entry where
  text : List Char
  time : Int
deriving DecidableEq

/-- JS `String.prototype.trim`: strip leading and trailing whitespace. -/
def trimStr (s : List Char) : List Char :=
  ((s.dropWhile Char.isWhitespace).reverse.dropWhile Char.isWhitespace).reverse

/-- Case-insensitive comparison support for the `/i` regex flags. -/
def lowerStr (s : List Char) : List Char :=
  s.map Char.toLower

/-- JS `text.startsWith(pre)`: `pre` is a prefix of `text`. -/
def jsStartsWith (text pre : List Char) : Bool :=
  decide (pre <+: text)

/-- JS `text.includes(sub)`: `sub` is a contiguous substring of `text`. -/
def jsIncludes (text sub : List Char) : Bool :=
  decide (sub <:+: text)

/-- Regex `/^[0-9]{1,2}:[0-9]{2}/` — a clock timestamp such as "10:30"
at the start of the string (one or two digits, a colon, two digits). -/
def matchClock : List Char → Bool
  | c1 :: c2 :: rest =>
    if c1.isDigit && c2.isDigit then
      match rest with
      | ':' :: a :: b :: _ => a.isDigit && b.isDigit
      | _ => false
    else if c1.isDigit && c2 = ':' then
      match rest with
      | a :: b :: _ => a.isDigit && b.isDigit
      | _ => false
    else false
  | _ => false

/-- Regex `/^(AM|PM)$/i`. -/
def matchAmPm (s : List Char) : Bool :=
  lowerStr s = String.toList "am" || lowerStr s = String.toList "pm"

/-- Regex `/^(Today|Yesterday)$/i`. -/
def matchToday (s : List Char) : Bool :=
  lowerStr s = String.toList "today" || lowerStr s = String.toList "yesterday"

/-- Regex `/^(Turn on|Turn off|Enable|Disable)/i`. -/
def matchControlA (s : List Char) : Bool :=
  List.isPrefixOf (String.toList "turn on") (lowerStr s) ||
  List.isPrefixOf (String.toList "turn off") (lowerStr s) ||
  List.isPrefixOf (String.toList "enable") (lowerStr s) ||
  List.isPrefixOf (String.toList "disable") (lowerStr s)

/-- Regex `/^(Mute|Unmute|Share|Stop|Leave|Join)/i`. -/
def matchControlB (s : List Char) : Bool :=
  List.isPrefixOf (String.toList "mute") (lowerStr s) ||
  List.isPrefixOf (String.toList "unmute") (lowerStr s) ||
  List.isPrefixOf (String.toList "share") (lowerStr s) ||
  List.isPrefixOf (String.toList "stop") (lowerStr s) ||
  List.isPrefixOf (String.toList "leave") (lowerStr s) ||
  List.isPrefixOf (String.toList "join") (lowerStr s)

/-- Regex `/^[A-Z]{2,3}$/` — two or three upper-case letters (initials). -/
def matchInitials (s : List Char) : Bool :=
  (s.length = 2 || s.length = 3) && s.all Char.isUpper

/-- Regex `/^Live captions/i`. -/
def matchLiveCaptions (s : List Char) : Bool :=
  List.isPrefixOf (String.toList "live captions") (lowerStr s)

/-- Regex `/^\.\.\./` — a leading ellipsis. -/
def matchEllipsis (s : List Char) : Bool :=
  List.isPrefixOf (String.toList "...") s

/-- `CaptionGrabber.isUIText`: `uiPatterns.some(p => p.test(text.trim()))`. -/
def isUIText (s : List Char) : Bool :=
  let t := trimStr s
  matchClock t || matchAmPm t || matchToday t || matchControlA t ||
    matchControlB t || matchInitials t || matchLiveCaptions t || matchEllipsis t

/-- `this.buffer.push(e)` followed by
`if (this.buffer.length > 25) this.buffer.shift()`. Index 0 is the
oldest entry, as in the source. -/
def pushWithCap (buf : List Entry) (e : Entry) : List Entry :=
  let b := buf ++ [e]
  if b.length > 25 then b.tail else b

/-- `CaptionGrabber.processText(rawText)` as a function of the current
buffer, the current time (`Date.now()`) and the incoming fragment.
Branch structure follows the source: the empty/short guard, the
`isUIText` guard, then Cases A (incremental update of the last entry),
B (stale partial re-observation), C (exact duplicate) and D (append
with the 25-entry cap). -/
def processText (buf : List Entry) (now : Int) (rawText : List Char) : List Entry :=
  if rawText.isEmpty then buf
  else
    let text := trimStr rawText
    if text.length < 2 then buf
    else if isUIText text then buf
    else
      match buf.getLast? with
      | some lastEntry =>
        let lastText := lastEntry.text
        if jsStartsWith text lastText || jsIncludes text lastText then
          buf.dropLast ++ [⟨text, now⟩]
        else if jsIncludes lastText text then buf
        else if lastText = text then buf
        else pushWithCap buf ⟨text, now⟩
      | none => pushWithCap buf ⟨text, now⟩

/-- `CaptionGrabber.getRecentCaptions`: keep entries younger than 90
seconds (`now - item.time < 90000`, strict) and join their texts with
newlines. A pure read of the buffer. -/
def getRecentCaptions (buf : List Entry) (now : Int) : List Char :=
  let activeLines := buf.filter (fun item => decide (now - item.time < 90000))
  List.intercalate [ '\n' ] (activeLines.map Entry.text)

/-- Buffer states reachable from the empty buffer (created in the
constructor as `this.buffer = []`) by any sequence of ingestions. -/
inductive Reachable : List Entry → Prop where
  | empty : Reachable []
  | step (buf : List Entry) (now : Int) (raw : List Char) :
      Reachable buf → Reachable (processText buf now raw)

/-- Ingest a sequence of fragments left to right at a fixed time. -/
def ingestAll (buf : List Entry) (now : Int) (texts : List (List Char)) : List Entry :=
  texts.foldl (fun b t => processText b now t) buf

end Captions

namespace Background

/-- A JS exception that propagates (is thrown and, where it escapes a
`try`, left uncaught); `msg` is `err.message`. -/
structure Fault where
  msg : String
deriving DecidableEq

/-- The normalized `{text} | {error}` result shape returned by every
adapter, optionally annotated `usedRag` by `handleGenerateResponse`. -/
structure GenResult where
  text : Option String
  error : Option String
  usedRag : Bool
deriving DecidableEq

/-- One entry of `PROVIDERS_CONFIG` in `background.js`. -/
structure ProviderConfig where
  name : String
  requiresKey : Bool
  defaultModel : Option String
deriving DecidableEq

/-- `PROVIDERS_CONFIG[provider]`: `none` models the JS `undefined` for a
provider key absent from the object literal. -/
def PROVIDERS_CONFIG : String → Option ProviderConfig
  | "pollinations" => some ⟨"Pollinations (Free)", false, none⟩
  | "openai" => some ⟨"OpenAI", true, some "gpt-4o-mini"⟩
  | "gemini" => some ⟨"Google Gemini", true, some "models/gemini-2.5-flash"⟩
  | "openrouter" => some ⟨"OpenRouter", true, some "openai/gpt-oss-20b:free"⟩
  | "groq" => some ⟨"Groq", true, some "llama-3.3-70b-versatile"⟩
  | _ => none

/-- `RAG_CONFIG.ENABLED`. -/
def RAG_ENABLED : Bool := true

/-- `RAG_CONFIG.TOP_K`, the `limit` sent with every `/search` request. -/
def TOP_K : Nat := 3

/-- `RAG_CONFIG.MIN_SIMILARITY` (0.5). -/
def MIN_SIMILARITY : ℚ := mkRat 1 2

/-- One element of the retrieval service's `results` array. -/
structure Snippet where
  title : String
  content : String
  similarity : ℚ
deriving DecidableEq

/-- Outcome of the retrieval `fetch` in `getRagContext`: the promise
chain threw (network error, timeout, unparsable body), the response was
non-2xx (`!response.ok`), or a parsed `results` array came back. -/
inductive RagFetch where
  | thrown (msg : String)
  | notOk
  | ok (results : List Snippet)
deriving DecidableEq

/-- The per-snippet format `` `[${r.title}]: ${r.content}` ``. -/
def formatChunk (r : Snippet) : String :=
  "[" ++ r.title ++ "]: " ++ r.content

/-- `getRagContext(query)`: on success filter by the similarity
threshold, format, and join with blank lines; every failure path
returns `""` (the `catch` and the `!response.ok` early return). -/
def getRagContext (resp : RagFetch) : String :=
  if RAG_ENABLED = false then ""
  else
    match resp with
    | .thrown _ => ""
    | .notOk => ""
    | .ok results =>
      String.intercalate "\n\n"
        ((results.filter (fun r => decide (r.similarity ≥ MIN_SIMILARITY))).map formatChunk)

/-- Transport outcome for one provider `fetch`: either the promise
chain (fetch / `.json()` / `.text()`) rejected, or a response with an
`ok` flag, status data and a parsed body arrived. -/
inductive FetchOutcome (β : Type) where
  | thrown (msg : String)
  | success (ok : Bool) (status : Nat) (statusText : String) (body : β)
deriving DecidableEq

/-- Parsed JSON body shape as seen by `callOpenAI` / `callGroq`:
`errMsg = some m` when `data.error` is truthy and the error message
renders as `m`; `content = some c` when `data.choices[0].message.content`
is `c`, and `none` when that property chain faults (no `choices`). -/
structure OAIBody where
  errMsg : Option String
  content : Option String
deriving DecidableEq

/-- Body shape for `callGemini`: `candText` is
`data.candidates[0]?.content?.parts?.[0]?.text`, read with optional
chaining, hence `none` never faults. -/
structure GeminiBody where
  errMsg : Option String
  candText : Option String
deriving DecidableEq

/-- `data.error` in an OpenRouter body: either it has a `.message`, or
it is stringified via `JSON.stringify`. -/
inductive ORErrorVal where
  | withMessage (m : String)
  | plain (stringified : String)
deriving DecidableEq

/-- Body shape for `callOpenRouter`: `content` is
`data.choices[0]?.message?.content`, read with optional chaining. -/
structure ORBody where
  err : Option ORErrorVal
  content : Option String
deriving DecidableEq

/-- `callPollinations`: non-2xx becomes a `Pollinations Error:` result,
a 2xx body is the answer text verbatim; a rejected fetch propagates. -/
def callPollinations (outcome : FetchOutcome String) : Except Fault GenResult :=
  match outcome with
  | .thrown m => .error ⟨m⟩
  | .success ok status statusText body =>
    if ok then .ok ⟨some body, none, false⟩
    else .ok ⟨none, some ("Pollinations Error: " ++ toString status ++ " " ++ statusText), false⟩

/-- `callOpenAI`: surfaces `data.error.message`; otherwise reads
`data.choices[0].message.content`, which throws a TypeError when the
body has no `choices` (modelled by `content = none`). -/
def callOpenAI (outcome : FetchOutcome OAIBody) : Except Fault GenResult :=
  match outcome with
  | .thrown m => .error ⟨m⟩
  | .success _ _ _ body =>
    match body.errMsg with
    | some m => .ok ⟨none, some ("OpenAI Error: " ++ m), false⟩
    | none =>
      match body.content with
      | some c => .ok ⟨some c, none, false⟩
      | none => .error ⟨"Cannot read properties of undefined (reading 0)"⟩

/-- `callGemini`: surfaces `data.error.message`; a missing candidate is
the distinct "Gemini: No response generated" error, not a fault. -/
def callGemini (outcome : FetchOutcome GeminiBody) : Except Fault GenResult :=
  match outcome with
  | .thrown m => .error ⟨m⟩
  | .success _ _ _ body =>
    match body.errMsg with
    | some m => .ok ⟨none, some ("Gemini Error: " ++ m), false⟩
    | none =>
      match body.candText with
      | some t => .ok ⟨some t, none, false⟩
      | none => .ok ⟨none, some "Gemini: No response generated", false⟩

/-- `callOpenRouter`: surfaces `data.error` (message or stringified);
missing choices is the "OpenRouter: No response generated" error. -/
def callOpenRouter (outcome : FetchOutcome ORBody) : Except Fault GenResult :=
  match outcome with
  | .thrown m => .error ⟨m⟩
  | .success _ _ _ body =>
    match body.err with
    | some (.withMessage m) => .ok ⟨none, some ("OpenRouter Error: " ++ m), false⟩
    | some (.plain s) => .ok ⟨none, some ("OpenRouter Error: " ++ s), false⟩
    | none =>
      match body.content with
      | some c => .ok ⟨some c, none, false⟩
      | none => .ok ⟨none, some "OpenRouter: No response generated", false⟩

/-- `callGroq`: identical shape handling to `callOpenAI` with the Groq
error prefix. -/
def callGroq (outcome : FetchOutcome OAIBody) : Except Fault GenResult :=
  match outcome with
  | .thrown m => .error ⟨m⟩
  | .success _ _ _ body =>
    match body.errMsg with
    | some m => .ok ⟨none, some ("Groq Error: " ++ m), false⟩
    | none =>
      match body.content with
      | some c => .ok ⟨some c, none, false⟩
      | none => .error ⟨"Cannot read properties of undefined (reading 0)"⟩

/-- The transport outcome each backend would produce for this request:
one field per provider adapter. -/
structure Backend where
  pollinations : FetchOutcome String
  openai : FetchOutcome OAIBody
  gemini : FetchOutcome GeminiBody
  openrouter : FetchOutcome ORBody
  groq : FetchOutcome OAIBody
deriving DecidableEq

/-- The `switch (provider)` dispatch inside `handleGenerateResponse`;
`case "openai"` shares the `default` arm in the source. -/
def dispatchProvider (b : Backend) (provider : String) : Except Fault GenResult :=
  match provider with
  | "pollinations" => callPollinations b.pollinations
  | "gemini" => callGemini b.gemini
  | "openrouter" => callOpenRouter b.openrouter
  | "groq" => callGroq b.groq
  | _ => callOpenAI b.openai

/-- The slice of `chrome.storage.local` read by
`handleGenerateResponse` (fields `prompt`/`tone` are read but unused by
the logic the claims cover). `apiKeys` is the per-provider key map. -/
structure Settings where
  provider : Option String
  model : Option String
  apiKeys : List (String × String)
  ragEnabled : Option Bool
deriving DecidableEq

/-- JS `value || dflt` on a string read from storage: `undefined` and
`""` are both falsy. -/
def jsOrStr : Option String → String → String
  | some s, d => if s = "" then d else s
  | none, d => d

/-- `settings.provider || "pollinations"`. -/
def resolveProvider (s : Settings) : String :=
  jsOrStr s.provider "pollinations"

/-- `settings.model || PROVIDERS_CONFIG[provider]?.defaultModel || "openai"`. -/
def resolveModel (s : Settings) (provider : String) : String :=
  jsOrStr s.model
    (jsOrStr ((PROVIDERS_CONFIG provider).bind ProviderConfig.defaultModel) "openai")

/-- `(settings.apiKeys || {})[provider] || ""`. -/
def apiKeyFor (s : Settings) (provider : String) : String :=
  (s.apiKeys.lookup provider).getD ""

/-- `settings.ragEnabled !== false` (defaults to true). -/
def ragEnabledOf (s : Settings) : Bool :=
  decide (s.ragEnabled ≠ some false)

/-- The missing-credential condition
`providerConfig.requiresKey && !apiKey` (false when the provider is
unknown, in which case the source faults before testing it). -/
def missingKey (s : Settings) : Bool :=
  match PROVIDERS_CONFIG (resolveProvider s) with
  | some cfg => cfg.requiresKey && decide (apiKeyFor s (resolveProvider s) = "")
  | none => false

/-- Stands for the literal role/style preamble string assigned to
`systemPrompt` (the mainframe-coach instructions); its exact prose is
inert data for the properties verified here. -/
def SYSTEM_PREAMBLE : String :=
  "You are an expert MAINFRAME interview coach."

/-- Stands for the delimiter + header prepended to the knowledge-base
block when `ragContext` is non-empty. -/
def KB_HEADER : String := "YOUR KNOWLEDGE BASE (USE THIS FIRST!):"

/-- Stands for the delimiter + header introducing the transcript window
and the closing instruction appended after it. -/
def ASK_HEADER : String := "INTERVIEWER JUST ASKED:"

/-- Closing instruction of the composed prompt. -/
def ASK_FOOTER : String :=
  "Generate the IDEAL spoken answer now. Be concise, confident, and specific."

/-- The composed system prompt: preamble, then the knowledge-base block
only when `ragContext` is non-empty, then the transcript window and the
closing instruction. -/
def buildSystemPrompt (ragContext recentCaptions : String) : String :=
  SYSTEM_PREAMBLE ++
    (if ragContext = "" then "" else "\n" ++ KB_HEADER ++ "\n" ++ ragContext ++ "\n") ++
    "\n" ++ ASK_HEADER ++ "\n" ++ recentCaptions ++ "\n" ++ ASK_FOOTER

/-- Outbound calls the handler makes, for counting collaborator use:
the retrieval `/search` POST and the selected provider call. -/
inductive OutCall where
  | ragSearch (query : String) (limit : Nat)
  | backend (provider : String)
deriving DecidableEq

/-- `handleGenerateResponse(payload)` over the settings snapshot, the
backend transport outcomes and the retrieval outcome. Returns the
result handed to `sendResponse` together with the outbound calls made,
or `Except.error` for a fault thrown outside any `try` (the unguarded
`providerConfig.requiresKey` read when the provider key is unknown).
The `try { switch ... } catch (err)` around the dispatch rewraps any
exception as `Network Error: ${err.message}`. -/
def handleGenerateResponse (s : Settings) (b : Backend) (rag : RagFetch)
    (recentCaptions : String) : Except Fault (GenResult × List OutCall) :=
  let provider := resolveProvider s
  let _model := resolveModel s provider
  let ragEnabled := ragEnabledOf s
  let apiKey := apiKeyFor s provider
  match PROVIDERS_CONFIG provider with
  | none => .error ⟨"Cannot read properties of undefined (reading requiresKey)"⟩
  | some cfg =>
    if cfg.requiresKey && decide (apiKey = "") then
      .ok (⟨none, some ("No API Key found for " ++ cfg.name ++
        ". Please open extension settings."), false⟩, [])
    else
      let ragCalls := if ragEnabled && RAG_ENABLED then
        [OutCall.ragSearch recentCaptions TOP_K] else []
      let ragContext := if ragEnabled then getRagContext rag else ""
      let _sysPrompt := buildSystemPrompt ragContext recentCaptions
      let calls := ragCalls ++ [OutCall.backend provider]
      match dispatchProvider b provider with
      | .error f => .ok (⟨none, some ("Network Error: " ++ f.msg), false⟩, calls)
      | .ok r =>
        let annotated :=
          if ragContext ≠ "" ∧ r.text.getD "" ≠ "" then
            ⟨r.text, r.error, true⟩
          else r
        .ok (annotated, calls)

/-- The value `sendResponse` receives from the guarded dispatch: the
adapter's result, or the `catch`-wrapped network error. -/
def resultOfDispatch : Except Fault GenResult → GenResult
  | .ok r => r
  | .error f => ⟨none, some ("Network Error: " ++ f.msg), false⟩

end Background

open Captions Background

/-! Auxiliary definitions used by the verification statements. -/

/-- Strengthened buffer invariant: a later entry's text is never a
substring of the text of the entry directly before it. Case B of the
merge rejects such fragments at append time, and Case A only ever grows
the final entry, so every reachable buffer satisfies this. -/
def TailSafe (buf : List Entry) : Prop :=
  buf.Chain' (fun a b => ¬ (b.text <:+: a.text))

/-- Modelled from the spec: the query contract `recentWindow(maxAgeMs)`
— the newline-joined, chronological-order concatenation of the entries
whose age is strictly below `maxAgeMs`. Comparison point for
`getRecentCaptions`, which hardcodes the pipeline default of 90000 ms. -/
def specRecentWindow (maxAgeMs : Int) (buf : List Entry) (now : Int) : List Char :=
  List.intercalate [ '\n' ]
    ((buf.filter (fun e => decide (now - e.time < maxAgeMs))).map Entry.text)

/-- Modelled from the spec: keep only snippets with similarity ≥ 0.5,
take at most the top 3 in the retrieval service's own order, and join
the `[title]: content` blocks with a blank line. Comparison point for
`getRagContext`, which instead obtains the top-3 bound by sending
`limit: TOP_K` with the request. -/
def specKnowledgeBlock (results : List Snippet) : String :=
  String.intercalate "\n\n"
    (((results.filter (fun r => decide (r.similarity ≥ MIN_SIMILARITY))).take 3).map formatChunk)

/-- Two-digit rendering of the indices used for the 30-utterance
scenario, keeping all texts the same length (hence pairwise
substring-free). -/
def pad2 (i : Nat) : String :=
  if i < 10 then "0" ++ toString i else toString i

/-- Thirty distinct, non-duplicate, non-mergeable utterances. -/
def inputs30 : List (List Char) :=
  (List.range 30).map (fun i => String.toList ("q" ++ pad2 i))

/-- A backend world in which every provider transport rejects. -/
def backendAllDown : Backend :=
  ⟨.thrown "net", .thrown "net", .thrown "net", .thrown "net", .thrown "net"⟩

/-- The `usedRag` annotation step after the dispatch:
`if (ragContext && response.text) response.usedRag = true`. -/
def annotateRag (ragContext : String) (r : GenResult) : GenResult :=
  if ragContext ≠ "" ∧ r.text.getD "" ≠ "" then ⟨r.text, r.error, true⟩ else r

/-- A fragment that survives the ingestion guards as-is: already
trimmed, at least two characters, not UI noise. -/
def ValidFragment (t : List Char) : Prop :=
  trimStr t = t ∧ 2 ≤ t.length ∧ isUIText t = false

/-- Two consecutive utterances that the tail-only merge treats as
distinct: neither is a substring of the other (this rules out the
overwrite, stale-partial and duplicate branches at once). -/
def NonMergeable (a b : List Char) : Prop :=
  ¬ (a <:+: b) ∧ ¬ (b <:+: a)

instance (t : List Char) : Decidable (ValidFragment t) :=
  decidable_of_iff (trimStr t = t ∧ 2 ≤ t.length ∧ isUIText t = false) Iff.rfl

instance (a b : List Char) : Decidable (NonMergeable a b) :=
  decidable_of_iff (¬ (a <:+: b) ∧ ¬ (b <:+: a)) Iff.rfl


/-! Helper lemmas about the merge step. -/

theorem jsStartsWith_true {s t : List Char} (h : jsStartsWith s t = true) : t <+: s :=
  of_decide_eq_true h

theorem jsIncludes_true {s t : List Char} (h : jsIncludes s t = true) : t <:+: s :=
  of_decide_eq_true h

theorem jsIncludes_false {s t : List Char} (h : jsIncludes s t = false) : ¬ t <:+: s :=
  of_decide_eq_false h

/-- Once an incoming fragment has survived the guards and the buffer is
non-empty, `processText` reduces to the four-way merge decision of the
source. -/
theorem processText_eq_merge (buf : List Entry) (now : Int) (text : List Char)
    (lastEntry : Entry)
    (hlast : buf.getLast? = some lastEntry)
    (htrim : trimStr text = text) (hlen : 2 ≤ text.length)
    (hui : isUIText text = false) :
    processText buf now text =
      (if jsStartsWith text lastEntry.text || jsIncludes text lastEntry.text then
        buf.dropLast ++ [⟨text, now⟩]
      else if jsIncludes lastEntry.text text then buf
      else if lastEntry.text = text then buf
      else pushWithCap buf ⟨text, now⟩) := by
  have hne : text.isEmpty = false := by
    cases text with
    | nil => simp at hlen
    | cons a l => rfl
  have hl2 : ¬ (trimStr text).length < 2 := by rw [htrim]; omega
  simp only [processText, hne, Bool.false_eq_true, if_false, htrim, hl2, if_neg hl2, hui, hlast]
  rw [if_neg (by omega : ¬ text.length < 2)]

/-- C1: with a non-empty buffer the merge decision compares the
incoming fragment against the last entry only and follows the source's
case order — starts-with/contains the last text: overwrite in place
with a fresh timestamp and no append; last text contains the fragment:
discard; fragment equals the last text: discard; otherwise append.
Feeding "Tell me about" then "Tell me about yourself" yields exactly
one entry with the longer text. -/
theorem merge_decision_tail_only (buf : List Entry) (now : Int) (text : List Char)
    (lastEntry : Entry)
    (hlast : buf.getLast? = some lastEntry)
    (htrim : trimStr text = text) (hlen : 2 ≤ text.length)
    (hui : isUIText text = false) :
    ((jsStartsWith text lastEntry.text || jsIncludes text lastEntry.text) = true →
        processText buf now text = buf.dropLast ++ [⟨text, now⟩] ∧
        (buf.dropLast ++ [(⟨text, now⟩ : Entry)]).length = buf.length)
    ∧ ((jsStartsWith text lastEntry.text || jsIncludes text lastEntry.text) = false →
        jsIncludes lastEntry.text text = true →
        processText buf now text = buf)
    ∧ ((jsStartsWith text lastEntry.text || jsIncludes text lastEntry.text) = false →
        jsIncludes lastEntry.text text = false →
        lastEntry.text = text →
        processText buf now text = buf)
    ∧ ((jsStartsWith text lastEntry.text || jsIncludes text lastEntry.text) = false →
        jsIncludes lastEntry.text text = false →
        lastEntry.text ≠ text →
        processText buf now text = pushWithCap buf ⟨text, now⟩)
    ∧ processText (processText [] 0 (String.toList "Tell me about")) 1
        (String.toList "Tell me about yourself")
        = [⟨String.toList "Tell me about yourself", 1⟩] := by
  have hne : buf ≠ [] := by
    intro h
    rw [h] at hlast
    exact Option.noConfusion hlast
  have heq := processText_eq_merge buf now text lastEntry hlast htrim hlen hui
  refine ⟨?_, ?_, ?_, ?_, by decide⟩
  · intro hA
    rw [heq, if_pos hA]
    refine ⟨rfl, ?_⟩
    rw [List.length_append, List.length_dropLast, List.length_singleton]
    have : 0 < buf.length := List.length_pos.mpr hne
    omega
  · intro hA hB
    rw [heq, if_neg (by simp [hA]), if_pos hB]
  · intro hA hB hC
    rw [heq, if_neg (by simp [hA]), if_neg (by simp [hB]), if_pos hC]
  · intro hA hB hC
    rw [heq, if_neg (by simp [hA]), if_neg (by simp [hB]), if_neg hC]

/-- C1 witness: the merge decision at a concrete buffer and fragment. -/
theorem merge_decision_tail_only_witness :
    ((jsStartsWith (String.toList "Hello there friend") (String.toList "Hello there") ||
        jsIncludes (String.toList "Hello there friend") (String.toList "Hello there")) = true →
      processText [⟨String.toList "Hello there", 0⟩] 7 (String.toList "Hello there friend")
        = ([] : List Entry) ++ [⟨String.toList "Hello there friend", 7⟩] ∧
      (([] : List Entry) ++ [(⟨String.toList "Hello there friend", 7⟩ : Entry)]).length
        = [(⟨String.toList "Hello there", 0⟩ : Entry)].length)
    ∧ ((jsStartsWith (String.toList "Hello there friend") (String.toList "Hello there") ||
        jsIncludes (String.toList "Hello there friend") (String.toList "Hello there")) = false →
        jsIncludes (String.toList "Hello there") (String.toList "Hello there friend") = true →
        processText [⟨String.toList "Hello there", 0⟩] 7 (String.toList "Hello there friend")
          = [⟨String.toList "Hello there", 0⟩])
    ∧ ((jsStartsWith (String.toList "Hello there friend") (String.toList "Hello there") ||
        jsIncludes (String.toList "Hello there friend") (String.toList "Hello there")) = false →
        jsIncludes (String.toList "Hello there") (String.toList "Hello there friend") = false →
        (String.toList "Hello there") = (String.toList "Hello there friend") →
        processText [⟨String.toList "Hello there", 0⟩] 7 (String.toList "Hello there friend")
          = [⟨String.toList "Hello there", 0⟩])
    ∧ ((jsStartsWith (String.toList "Hello there friend") (String.toList "Hello there") ||
        jsIncludes (String.toList "Hello there friend") (String.toList "Hello there")) = false →
        jsIncludes (String.toList "Hello there") (String.toList "Hello there friend") = false →
        (String.toList "Hello there") ≠ (String.toList "Hello there friend") →
        processText [⟨String.toList "Hello there", 0⟩] 7 (String.toList "Hello there friend")
          = pushWithCap [⟨String.toList "Hello there", 0⟩] ⟨String.toList "Hello there friend", 7⟩)
    ∧ processText (processText [] 0 (String.toList "Tell me about")) 1
        (String.toList "Tell me about yourself")
        = [⟨String.toList "Tell me about yourself", 1⟩] := by
  have h := merge_decision_tail_only [⟨String.toList "Hello there", 0⟩] 7
    (String.toList "Hello there friend") ⟨String.toList "Hello there", 0⟩
    (by decide) (by decide) (by decide) (by decide)
  simpa using h

/-- C9: a fragment whose trimmed form is shorter than 2 characters, or
matches one of the UI-noise patterns (clock timestamp, AM/PM,
Today/Yesterday, control verbs, 2-3 letter all-caps initials, the
"Live captions" banner, a leading ellipsis), leaves the buffer
entirely unchanged. -/
theorem noise_leaves_buffer_unchanged (buf : List Entry) (now : Int) (raw : List Char)
    (h : (trimStr raw).length < 2 ∨ isUIText (trimStr raw) = true) :
    processText buf now raw = buf := by
  by_cases he : raw.isEmpty
  · simp [processText, he]
  · by_cases hl : (trimStr raw).length < 2
    · simp [processText, he, hl]
    · rcases h with h | h
      · exact absurd h hl
      · simp [processText, he, hl, h]

/-- C9 witness: the noise input "10:45" leaves a concrete buffer
untouched. -/
theorem noise_leaves_buffer_unchanged_witness :
    processText [⟨String.toList "hello there", 0⟩] 5 (String.toList "10:45")
      = [⟨String.toList "hello there", 0⟩] :=
  noise_leaves_buffer_unchanged [⟨String.toList "hello there", 0⟩] 5
    (String.toList "10:45") (by decide)

/-- C10: a fragment exactly equal to the last entry's text fires the
incremental-update branch (an equal string passes the starts-with
test): the entry's text is unchanged, its timestamp is refreshed to the
current time, nothing is appended. -/
theorem duplicate_refreshes_timestamp (buf : List Entry) (lastEntry : Entry) (now : Int)
    (hlast : buf.getLast? = some lastEntry)
    (htrim : trimStr lastEntry.text = lastEntry.text)
    (hlen : 2 ≤ lastEntry.text.length)
    (hui : isUIText lastEntry.text = false) :
    processText buf now lastEntry.text = buf.dropLast ++ [⟨lastEntry.text, now⟩]
    ∧ (buf.dropLast ++ [(⟨lastEntry.text, now⟩ : Entry)]).map Entry.text = buf.map Entry.text
    ∧ (buf.dropLast ++ [(⟨lastEntry.text, now⟩ : Entry)]).length = buf.length := by
  have hne : buf ≠ [] := by
    intro h
    rw [h] at hlast
    exact Option.noConfusion hlast
  have hA : (jsStartsWith lastEntry.text lastEntry.text ||
      jsIncludes lastEntry.text lastEntry.text) = true := by
    have : jsStartsWith lastEntry.text lastEntry.text = true :=
      decide_eq_true (List.prefix_refl _)
    simp [this]
  have hsplit : buf.dropLast ++ [lastEntry] = buf :=
    List.dropLast_append_getLast? lastEntry hlast
  refine ⟨?_, ?_, ?_⟩
  · rw [processText_eq_merge buf now lastEntry.text lastEntry hlast htrim hlen hui, if_pos hA]
  · conv_rhs => rw [← hsplit]
    simp
  · rw [List.length_append, List.length_dropLast, List.length_singleton]
    have : 0 < buf.length := List.length_pos.mpr hne
    omega

/-- C10 witness: re-observing "Hello there" when it is already the last
entry rewrites the entry in place with the new timestamp. -/
theorem duplicate_refreshes_timestamp_witness :
    processText [⟨String.toList "Hello there", 0⟩] 9 (String.toList "Hello there")
      = ([] : List Entry) ++ [⟨String.toList "Hello there", 9⟩]
    ∧ (([] : List Entry) ++ [(⟨String.toList "Hello there", 9⟩ : Entry)]).map Entry.text
        = [(⟨String.toList "Hello there", 0⟩ : Entry)].map Entry.text
    ∧ (([] : List Entry) ++ [(⟨String.toList "Hello there", 9⟩ : Entry)]).length
        = [(⟨String.toList "Hello there", 0⟩ : Entry)].length := by
  have h := duplicate_refreshes_timestamp [⟨String.toList "Hello there", 0⟩]
    ⟨String.toList "Hello there", 0⟩ 9 (by decide) (by decide) (by decide) (by decide)
  simpa using h

/-- C7: the windowed read equals the spec's `recentWindow(maxAgeMs)`
filter at the pipeline default of 90000 ms — the join of exactly the
entries whose age is strictly below the threshold — and an entry whose
age is exactly 90000 is excluded while a strictly younger one is kept.
The read is a pure function of the buffer: no state is mutated. -/
theorem recent_window_strict_filter :
    (∀ (buf : List Entry) (now : Int),
      getRecentCaptions buf now = specRecentWindow 90000 buf now)
    ∧ getRecentCaptions [⟨String.toList "ab", 0⟩] 90000 = []
    ∧ getRecentCaptions [⟨String.toList "ab", 1⟩] 90000 = String.toList "ab" := by
  refine ⟨fun buf now => rfl, by decide, by decide⟩

/-- Every branch of the ingestion step keeps the buffer within the
25-entry cap. -/
theorem processText_length_le (buf : List Entry) (now : Int) (raw : List Char)
    (h : buf.length ≤ 25) :
    (processText buf now raw).length ≤ 25 := by
  have hpush : ∀ e : Entry, (pushWithCap buf e).length ≤ 25 := by
    intro e
    simp only [pushWithCap]
    split
    · rw [List.length_tail, List.length_append, List.length_singleton]
      omega
    · rename_i hgt
      rw [List.length_append, List.length_singleton] at hgt ⊢
      omega
  have hdrop : ∀ e : Entry, buf ≠ [] → (buf.dropLast ++ [e]).length ≤ 25 := by
    intro e hne
    rw [List.length_append, List.length_dropLast, List.length_singleton]
    have : 0 < buf.length := List.length_pos.mpr hne
    omega
  simp only [processText]
  split
  · exact h
  · split
    · exact h
    · split
      · exact h
      · split
        · rename_i lastEntry heq
          split
          · apply hdrop
            intro hb
            rw [hb] at heq
            exact Option.noConfusion heq
          · split
            · exact h
            · split
              · exact h
              · exact hpush _
        · exact hpush _

/-- Dropping strictly fewer elements than the length preserves the last
element. -/
theorem getLast?_drop_of_lt {α : Type} (l : List α) (d : Nat) (h : d < l.length) :
    (l.drop d).getLast? = l.getLast? := by
  conv_rhs => rw [← List.take_append_drop d l]
  rw [List.getLast?_append, Option.or_of_isSome]
  rw [List.getLast?_isSome]
  intro he
  have hl := List.length_drop d l
  rw [he] at hl
  simp only [List.length_nil] at hl
  omega

/-- Ingesting a valid fragment into the empty buffer appends it. -/
theorem processText_empty (now : Int) (t : List Char)
    (htr : trimStr t = t) (hlen : 2 ≤ t.length) (hui : isUIText t = false) :
    processText [] now t = [⟨t, now⟩] := by
  have hne : t.isEmpty = false := by
    cases t with
    | nil => simp at hlen
    | cons a l => rfl
  simp only [processText, hne, Bool.false_eq_true, if_false, htr, hui, List.getLast?_nil]
  rw [if_neg (by omega : ¬ t.length < 2)]
  simp [pushWithCap]

/-- General FIFO behaviour: ingesting any sequence of valid, pairwise
non-mergeable fragments from the empty buffer leaves exactly the most
recent 25 of them, in order, all timestamped with the ingestion time. -/
theorem ingestAll_fifo (ts : List (List Char))
    (hval : ∀ t ∈ ts, ValidFragment t)
    (hchain : ts.Chain' NonMergeable) :
    ingestAll [] 0 ts = (ts.drop (ts.length - 25)).map (fun t => ⟨t, 0⟩) := by
  induction ts using List.reverseRecOn with
  | nil => rfl
  | append_singleton ts t ih =>
    have hval2 : ∀ u ∈ ts, ValidFragment u := fun u hu => hval u (List.mem_append_left _ hu)
    have hvt : ValidFragment t := hval t (by simp)
    obtain ⟨htr, hlen, hui⟩ := hvt
    have hchain2 : ts.Chain' NonMergeable := (List.chain'_append.mp hchain).1
    have hrel : ∀ x ∈ ts.getLast?, NonMergeable x t := by
      intro x hx
      exact (List.chain'_append.mp hchain).2.2 x hx t (by simp)
    have hstep : ingestAll [] 0 (ts ++ [t]) = processText (ingestAll [] 0 ts) 0 t := by
      simp [ingestAll]
    rw [hstep, ih hval2 hchain2]
    rcases eq_or_ne ts [] with hts | hts
    · subst hts
      rw [List.drop_nil, List.map_nil, processText_empty 0 t htr hlen hui]
      simp
    · have hdrop : ts.length - 25 < ts.length := by
        have : 0 < ts.length := List.length_pos.mpr hts
        omega
      have hlast : ((ts.drop (ts.length - 25)).map (fun u => (⟨u, 0⟩ : Entry))).getLast?
          = some ⟨ts.getLast hts, 0⟩ := by
        rw [List.getLast?_map, getLast?_drop_of_lt ts _ hdrop,
          List.getLast?_eq_getLast ts hts]
        rfl
      have hnm : NonMergeable (ts.getLast hts) t :=
        hrel _ (Option.mem_def.mpr (List.getLast?_eq_getLast ts hts))
      have hAneg : ¬ ((jsStartsWith t (ts.getLast hts) || jsIncludes t (ts.getLast hts)) = true) := by
        intro hA
        rw [Bool.or_eq_true] at hA
        rcases hA with h | h
        · exact hnm.1 ((jsStartsWith_true h).isInfix)
        · exact hnm.1 (jsIncludes_true h)
      have hBneg : ¬ (jsIncludes (ts.getLast hts) t = true) :=
        fun h => hnm.2 (jsIncludes_true h)
      have hCneg : ts.getLast hts ≠ t :=
        fun h => hnm.1 (h ▸ List.infix_refl _)
      rw [processText_eq_merge _ 0 t ⟨ts.getLast hts, 0⟩ hlast htr hlen hui]
      rw [if_neg hAneg, if_neg hBneg, if_neg hCneg]
      simp only [pushWithCap]
      by_cases hn : 25 ≤ ts.length
      · rw [if_pos (by
          simp only [List.length_append, List.length_map, List.length_drop,
            List.length_singleton]
          omega)]
        have hmapne : (ts.drop (ts.length - 25)).map (fun u => (⟨u, 0⟩ : Entry)) ≠ [] := by
          simp only [ne_eq, List.map_eq_nil_iff, List.drop_eq_nil_iff]
          omega
        rw [List.tail_append_of_ne_nil hmapne, ← List.map_tail, List.tail_drop]
        rw [List.length_append, List.length_singleton,
          List.drop_append_of_le_length (by omega), List.map_append]
        have hidx : ts.length - 25 + 1 = ts.length + 1 - 25 := by omega
        rw [hidx]
        rfl
      · rw [if_neg (by
          simp only [List.length_append, List.length_map, List.length_drop,
            List.length_singleton]
          omega)]
        have h1 : ts.length - 25 = 0 := by omega
        have h2 : (ts ++ [t]).length - 25 = 0 := by
          rw [List.length_append, List.length_singleton]
          omega
        rw [h1, h2, List.drop_zero, List.drop_zero, List.map_append]
        rfl

/-- C2: every reachable buffer holds at most 25 entries, and ingesting
30 distinct non-duplicate, non-mergeable utterances from the empty
buffer leaves exactly the most recent 25 in oldest-first order (the
first five are evicted FIFO). -/
theorem buffer_bounded_fifo :
    (∀ buf : List Entry, Reachable buf → buf.length ≤ 25)
    ∧ (∀ ts : List (List Char), (∀ t ∈ ts, ValidFragment t) → ts.Chain' NonMergeable →
        ingestAll [] 0 ts = (ts.drop (ts.length - 25)).map (fun t => ⟨t, 0⟩))
    ∧ ingestAll [] 0 inputs30
        = (inputs30.drop 5).map (fun t => ⟨t, 0⟩) := by
  refine ⟨?_, ingestAll_fifo, by decide⟩
  intro buf h
  induction h with
  | empty => simp
  | step b now raw _ ih => exact processText_length_le b now raw ih

/-- C2 witness: the invariant at a concrete reachable buffer, and the
FIFO description at a concrete valid two-utterance sequence. -/
theorem buffer_bounded_fifo_witness :
    (processText [] 0 (String.toList "hello world")).length ≤ 25
    ∧ ingestAll [] 0 [String.toList "alpha one", String.toList "beta two"]
        = (([String.toList "alpha one", String.toList "beta two"]).drop
            (([String.toList "alpha one", String.toList "beta two"]).length - 25)).map
            (fun t => ⟨t, 0⟩) :=
  ⟨buffer_bounded_fifo.1 (processText [] 0 (String.toList "hello world"))
      (Reachable.step [] 0 (String.toList "hello world") Reachable.empty),
    buffer_bounded_fifo.2.1 [String.toList "alpha one", String.toList "beta two"]
      (by decide)
      (List.chain'_cons.mpr ⟨by decide, List.chain'_singleton _⟩)⟩

/-- Appending an entry whose text is not a substring of the current
last entry's text preserves the strengthened invariant, including
through the FIFO eviction. -/
theorem tailSafe_pushWithCap (buf : List Entry) (e lastEntry : Entry)
    (h : TailSafe buf) (heq : buf.getLast? = some lastEntry)
    (hni : ¬ e.text <:+: lastEntry.text) : TailSafe (pushWithCap buf e) := by
  have happ : TailSafe (buf ++ [e]) := by
    rw [TailSafe, List.chain'_append]
    refine ⟨h, List.chain'_singleton _, ?_⟩
    intro x hx y hy
    simp only [List.head?_cons, Option.mem_def, Option.some.injEq] at hy
    subst hy
    rw [Option.mem_def, heq] at hx
    injection hx with hx
    subst hx
    exact hni
  simp only [pushWithCap]
  split
  · exact List.Chain'.tail happ
  · exact happ

/-- The ingestion step preserves the strengthened invariant. -/
theorem processText_tailSafe (buf : List Entry) (now : Int) (raw : List Char)
    (h : TailSafe buf) : TailSafe (processText buf now raw) := by
  simp only [processText]
  split
  · exact h
  · split
    · exact h
    · split
      · exact h
      · split
        · rename_i lastEntry heq
          split
          · rename_i hA
            rw [Bool.or_eq_true] at hA
            have hinf : lastEntry.text <:+: trimStr raw := by
              rcases hA with h1 | h1
              · exact (jsStartsWith_true h1).isInfix
              · exact jsIncludes_true h1
            have hsplit : buf.dropLast ++ [lastEntry] = buf :=
              List.dropLast_append_getLast? lastEntry heq
            rw [← hsplit] at h
            rw [TailSafe, List.chain'_append] at h ⊢
            obtain ⟨h1, _, h3⟩ := h
            refine ⟨h1, List.chain'_singleton _, ?_⟩
            intro x hx y hy
            simp only [List.head?_cons, Option.mem_def, Option.some.injEq] at hy
            subst hy
            intro hcon
            exact h3 x hx lastEntry (by simp) (hinf.trans hcon)
          · split
            · exact h
            · split
              · exact h
              · rename_i hB _
                have hB' : jsIncludes lastEntry.text (trimStr raw) = false := by
                  simpa using hB
                exact tailSafe_pushWithCap buf _ lastEntry h heq (jsIncludes_false hB')
        · rename_i heq
          have hb : buf = [] := List.getLast?_eq_none_iff.mp heq
          subst hb
          simp [pushWithCap, TailSafe]

/-- C8: in every buffer reachable from the empty buffer by ingestion,
no two adjacent entries have identical text; both the append branch and
the overwrite-last branch preserve the invariant. -/
theorem adjacent_texts_distinct (buf : List Entry) (h : Reachable buf) :
    buf.Chain' (fun a b => a.text ≠ b.text) := by
  have hts : TailSafe buf := by
    induction h with
    | empty => exact List.chain'_nil
    | step b now raw _ ih => exact processText_tailSafe b now raw ih
  refine List.Chain'.imp ?_ hts
  intro a b hab he
  exact hab (he ▸ List.infix_refl _)

/-- C8 witness: the invariant at a concrete reachable two-entry
buffer. -/
theorem adjacent_texts_distinct_witness :
    (processText (processText [] 0 (String.toList "hello there")) 1
        (String.toList "general kenobi")).Chain' (fun a b => a.text ≠ b.text) :=
  adjacent_texts_distinct _
    (Reachable.step _ 1 (String.toList "general kenobi")
      (Reachable.step [] 0 (String.toList "hello there") Reachable.empty))

/-- C5: when retrieval succeeds and the service honors the requested
`limit` of `TOP_K = 3`, the knowledge-base block kept for the prompt is
exactly the spec's gate — the returned snippets with similarity ≥ 0.5
in service order, at most 3 of them, formatted "[title]: content" and
joined with a blank line. A snippet at similarity 0.49 is excluded and
one at 0.50 is included. -/
theorem rag_context_gating (results : List Snippet)
    (hlen : results.length ≤ TOP_K) :
    getRagContext (.ok results) = specKnowledgeBlock results
    ∧ (results.filter (fun r => decide (r.similarity ≥ MIN_SIMILARITY))).length ≤ 3
    ∧ getRagContext (.ok [⟨"kb", "excluded", mkRat 49 100⟩]) = ""
    ∧ getRagContext (.ok [⟨"kb", "included", mkRat 1 2⟩, ⟨"kb2", "also", mkRat 8 10⟩])
        = "[kb]: included\n\n[kb2]: also" := by
  have hfl : (results.filter (fun r => decide (r.similarity ≥ MIN_SIMILARITY))).length ≤ 3 :=
    le_trans (List.length_filter_le _ _) hlen
  refine ⟨?_, hfl, by decide, by decide⟩
  rw [specKnowledgeBlock, List.take_of_length_le hfl]
  rfl

/-- C5 witness: the gate at a concrete three-snippet response. -/
theorem rag_context_gating_witness :
    getRagContext (.ok [⟨"a", "x", mkRat 3 4⟩, ⟨"b", "y", mkRat 1 4⟩, ⟨"c", "z", mkRat 1 2⟩])
        = specKnowledgeBlock [⟨"a", "x", mkRat 3 4⟩, ⟨"b", "y", mkRat 1 4⟩, ⟨"c", "z", mkRat 1 2⟩]
    ∧ (([⟨"a", "x", mkRat 3 4⟩, ⟨"b", "y", mkRat 1 4⟩, ⟨"c", "z", mkRat 1 2⟩] : List Snippet).filter
        (fun r => decide (r.similarity ≥ MIN_SIMILARITY))).length ≤ 3
    ∧ getRagContext (.ok [⟨"kb", "excluded", mkRat 49 100⟩]) = ""
    ∧ getRagContext (.ok [⟨"kb", "included", mkRat 1 2⟩, ⟨"kb2", "also", mkRat 8 10⟩])
        = "[kb]: included\n\n[kb2]: also" :=
  rag_context_gating [⟨"a", "x", mkRat 3 4⟩, ⟨"b", "y", mkRat 1 4⟩, ⟨"c", "z", mkRat 1 2⟩]
    (by decide)

/-- C4: when the resolved provider requires a credential and none is
configured for it, the handler returns the missing-credential error
result and the outbound call list is empty — no backend adapter call
and no retrieval call. -/
theorem missing_credential_no_calls (s : Settings) (b : Backend) (rag : RagFetch)
    (q : String) (cfg : ProviderConfig)
    (hcfg : PROVIDERS_CONFIG (resolveProvider s) = some cfg)
    (hreq : cfg.requiresKey = true)
    (hkey : apiKeyFor s (resolveProvider s) = "") :
    handleGenerateResponse s b rag q
      = .ok (⟨none, some ("No API Key found for " ++ cfg.name ++
          ". Please open extension settings."), false⟩, []) := by
  simp only [handleGenerateResponse, hcfg]
  rw [if_pos]
  rw [hreq, hkey]
  simp

/-- C4 witness: OpenAI selected with an empty key map returns the
missing-credential error and makes zero outbound calls. -/
theorem missing_credential_no_calls_witness :
    handleGenerateResponse ⟨some "openai", none, [], none⟩ backendAllDown RagFetch.notOk "q"
      = .ok (⟨none, some ("No API Key found for " ++ "OpenAI" ++
          ". Please open extension settings."), false⟩, []) :=
  missing_credential_no_calls ⟨some "openai", none, [], none⟩ backendAllDown RagFetch.notOk
    "q" ⟨"OpenAI", true, some "gpt-4o-mini"⟩ (by decide) (by decide) (by decide)

/-- Shape of every non-thrown `callPollinations` result. -/
theorem callPollinations_shape (o : FetchOutcome String) (r : GenResult)
    (h : callPollinations o = .ok r) : r.text.isSome ∨ r.error.isSome := by
  rcases o with m | ⟨ok, st, stx, body⟩
  · exact Except.noConfusion h
  · simp only [callPollinations] at h
    split at h <;> (injection h with h; subst h; simp)

/-- Shape of every non-thrown `callOpenAI` result. -/
theorem callOpenAI_shape (o : FetchOutcome OAIBody) (r : GenResult)
    (h : callOpenAI o = .ok r) : r.text.isSome ∨ r.error.isSome := by
  rcases o with m | ⟨ok, st, stx, body⟩
  · exact Except.noConfusion h
  · simp only [callOpenAI] at h
    rcases body with ⟨em, ct⟩
    rcases em with _ | m
    · rcases ct with _ | c
      · exact Except.noConfusion h
      · injection h with h; subst h; simp
    · injection h with h; subst h; simp

/-- Shape of every non-thrown `callGemini` result. -/
theorem callGemini_shape (o : FetchOutcome GeminiBody) (r : GenResult)
    (h : callGemini o = .ok r) : r.text.isSome ∨ r.error.isSome := by
  rcases o with m | ⟨ok, st, stx, body⟩
  · exact Except.noConfusion h
  · simp only [callGemini] at h
    rcases body with ⟨em, ct⟩
    rcases em with _ | m
    · rcases ct with _ | c <;> (injection h with h; subst h; simp)
    · injection h with h; subst h; simp

/-- Shape of every non-thrown `callOpenRouter` result. -/
theorem callOpenRouter_shape (o : FetchOutcome ORBody) (r : GenResult)
    (h : callOpenRouter o = .ok r) : r.text.isSome ∨ r.error.isSome := by
  rcases o with m | ⟨ok, st, stx, body⟩
  · exact Except.noConfusion h
  · simp only [callOpenRouter] at h
    rcases body with ⟨em, ct⟩
    rcases em with _ | ev
    · rcases ct with _ | c <;> (injection h with h; subst h; simp)
    · rcases ev with m | sg <;> (injection h with h; subst h; simp)

/-- Shape of every non-thrown `callGroq` result. -/
theorem callGroq_shape (o : FetchOutcome OAIBody) (r : GenResult)
    (h : callGroq o = .ok r) : r.text.isSome ∨ r.error.isSome := by
  rcases o with m | ⟨ok, st, stx, body⟩
  · exact Except.noConfusion h
  · simp only [callGroq] at h
    rcases body with ⟨em, ct⟩
    rcases em with _ | m
    · rcases ct with _ | c
      · exact Except.noConfusion h
      · injection h with h; subst h; simp
    · injection h with h; subst h; simp

/-- Every successful value out of the dispatch switch carries a text or
an error field (each adapter's non-thrown paths fill exactly one). -/
theorem dispatchProvider_shape (b : Backend) (p : String) (r : GenResult)
    (h : dispatchProvider b p = .ok r) : r.text.isSome ∨ r.error.isSome := by
  unfold dispatchProvider at h
  split at h
  · exact callPollinations_shape _ _ h
  · exact callGemini_shape _ _ h
  · exact callOpenRouter_shape _ _ h
  · exact callGroq_shape _ _ h
  · exact callOpenAI_shape _ _ h

/-- C6: any retrieval failure (network/timeout throw or non-2xx) yields
an empty context, and the generation request continues to the backend
unchanged — the handler's result is exactly the dispatch outcome (or
its network-error wrapping), the retrieval failure is never surfaced,
and the backend call is still made. -/
theorem rag_failure_best_effort (s : Settings) (b : Backend) (rag : RagFetch) (q : String)
    (hcfg : (PROVIDERS_CONFIG (resolveProvider s)).isSome = true)
    (hkey : missingKey s = false)
    (hfail : rag = RagFetch.notOk ∨ ∃ m, rag = RagFetch.thrown m) :
    getRagContext rag = ""
    ∧ ∃ calls, handleGenerateResponse s b rag q
        = .ok (resultOfDispatch (dispatchProvider b (resolveProvider s)), calls)
        ∧ OutCall.backend (resolveProvider s) ∈ calls := by
  have hctx : getRagContext rag = "" := by
    rcases hfail with h | ⟨m, h⟩ <;> subst h <;> rfl
  refine ⟨hctx, ?_⟩
  obtain ⟨cfg, hc⟩ := Option.isSome_iff_exists.mp hcfg
  have hkc : (cfg.requiresKey && decide (apiKeyFor s (resolveProvider s) = "")) = false := by
    unfold missingKey at hkey
    rw [hc] at hkey
    exact hkey
  have hctx2 : (if ragEnabledOf s = true then getRagContext rag else "") = "" := by
    split
    · exact hctx
    · rfl
  refine ⟨(if ragEnabledOf s && RAG_ENABLED then [OutCall.ragSearch q TOP_K] else []) ++
      [OutCall.backend (resolveProvider s)], ?_, by simp⟩
  simp only [handleGenerateResponse, hc, hctx2]
  rw [if_neg (by rw [hkc]; exact Bool.false_ne_true)]
  rcases hd : dispatchProvider b (resolveProvider s) with f | r
  · simp [resultOfDispatch]
  · simp [resultOfDispatch]

/-- C6 witness: a non-2xx retrieval failure with the default provider
degrades to empty context and the backend is still called. -/
theorem rag_failure_best_effort_witness :
    getRagContext RagFetch.notOk = ""
    ∧ ∃ calls, handleGenerateResponse ⟨none, none, [], none⟩ backendAllDown RagFetch.notOk "q"
        = .ok (resultOfDispatch (dispatchProvider backendAllDown
            (resolveProvider ⟨none, none, [], none⟩)), calls)
        ∧ OutCall.backend (resolveProvider ⟨none, none, [], none⟩) ∈ calls :=
  rag_failure_best_effort ⟨none, none, [], none⟩ backendAllDown RagFetch.notOk "q"
    (by decide) (by decide) (Or.inl rfl)

/-- C3 counterexample: a provider value resolvable from settings but
absent from the provider table ("anthropic") makes the handler fault —
`providerConfig.requiresKey` is read off `undefined` outside any `try`,
so no result value is ever returned and no call is made. -/
theorem generate_unknown_provider_faults :
    handleGenerateResponse ⟨some "anthropic", none, [], none⟩ backendAllDown RagFetch.notOk "hi"
      = .error ⟨"Cannot read properties of undefined (reading requiresKey)"⟩ := by
  rfl

/-- The annotation step never changes the text field. -/
theorem annotateRag_text (ctx : String) (r : GenResult) : (annotateRag ctx r).text = r.text := by
  unfold annotateRag
  split <;> rfl

/-- The annotation step never changes the error field. -/
theorem annotateRag_error (ctx : String) (r : GenResult) : (annotateRag ctx r).error = r.error := by
  unfold annotateRag
  split <;> rfl

/-- Once the provider is known and the credential gate passes, the
handler returns exactly the annotated dispatch outcome together with
the retrieval call (when RAG is enabled) and the backend call. -/
theorem handleGenerateResponse_eq (s : Settings) (b : Backend) (rag : RagFetch) (q : String)
    (cfg : ProviderConfig) (hc : PROVIDERS_CONFIG (resolveProvider s) = some cfg)
    (hk : (cfg.requiresKey && decide (apiKeyFor s (resolveProvider s) = "")) = false) :
    handleGenerateResponse s b rag q =
      .ok (annotateRag (if ragEnabledOf s then getRagContext rag else "")
            (resultOfDispatch (dispatchProvider b (resolveProvider s))),
          (if ragEnabledOf s && RAG_ENABLED then [OutCall.ragSearch q TOP_K] else []) ++
            [OutCall.backend (resolveProvider s)]) := by
  simp only [handleGenerateResponse, hc]
  rw [if_neg (by rw [hk]; exact Bool.false_ne_true)]
  rcases hd : dispatchProvider b (resolveProvider s) with f | r
  · simp [resultOfDispatch, annotateRag]
  · simp only [resultOfDispatch, annotateRag]

/-- C3 (amended): for every generation trigger whose resolved provider
is present in the provider table, and any backend response shape,
handling resolves to a returned result value carrying a text or an
error, and a thrown transport exception during the backend call is
caught and rewrapped as the generic "Network Error: <detail>" string
rather than escaping the dispatcher. (For a provider value absent from
the table, the handler instead faults before any call is made — see the
counterexample.) -/
theorem generate_resolves_known_provider (s : Settings) (b : Backend) (rag : RagFetch)
    (q : String)
    (hcfg : (PROVIDERS_CONFIG (resolveProvider s)).isSome = true) :
    (∃ r calls, handleGenerateResponse s b rag q = .ok (r, calls)
        ∧ (r.text.isSome ∨ r.error.isSome))
    ∧ (∀ m, missingKey s = false →
        dispatchProvider b (resolveProvider s) = .error ⟨m⟩ →
        ∃ calls, handleGenerateResponse s b rag q
          = .ok (⟨none, some ("Network Error: " ++ m), false⟩, calls)) := by
  obtain ⟨cfg, hc⟩ := Option.isSome_iff_exists.mp hcfg
  by_cases hk : (cfg.requiresKey && decide (apiKeyFor s (resolveProvider s) = "")) = true
  · constructor
    · refine ⟨⟨none, some ("No API Key found for " ++ cfg.name ++
          ". Please open extension settings."), false⟩, [], ?_, by simp⟩
      simp only [handleGenerateResponse, hc]
      rw [if_pos hk]
    · intro m hmk _
      exfalso
      simp only [missingKey, hc] at hmk
      rw [hmk] at hk
      exact Bool.false_ne_true hk
  · have hk' : (cfg.requiresKey && decide (apiKeyFor s (resolveProvider s) = "")) = false :=
      Bool.eq_false_iff.mpr hk
    have heq := handleGenerateResponse_eq s b rag q cfg hc hk'
    constructor
    · refine ⟨_, _, heq, ?_⟩
      rw [annotateRag_text, annotateRag_error]
      rcases hd : dispatchProvider b (resolveProvider s) with f | r
      · right
        simp [resultOfDispatch]
      · have hsh := dispatchProvider_shape b (resolveProvider s) r hd
        simpa [resultOfDispatch] using hsh
    · intro m hmk hdm
      refine ⟨(if ragEnabledOf s && RAG_ENABLED then [OutCall.ragSearch q TOP_K] else []) ++
          [OutCall.backend (resolveProvider s)], ?_⟩
      rw [heq, hdm]
      simp [resultOfDispatch, annotateRag]

/-- C3 (amended) witness: a configured key-based provider whose
transport rejects resolves to the wrapped network-error result. -/
theorem generate_resolves_known_provider_witness :
    (∃ r calls, handleGenerateResponse ⟨some "openai", none, [("openai", "sk-test")], none⟩
          backendAllDown RagFetch.notOk "q" = .ok (r, calls)
        ∧ (r.text.isSome ∨ r.error.isSome))
    ∧ (∀ m, missingKey ⟨some "openai", none, [("openai", "sk-test")], none⟩ = false →
        dispatchProvider backendAllDown
            (resolveProvider ⟨some "openai", none, [("openai", "sk-test")], none⟩)
          = .error ⟨m⟩ →
        ∃ calls, handleGenerateResponse ⟨some "openai", none, [("openai", "sk-test")], none⟩
            backendAllDown RagFetch.notOk "q"
          = .ok (⟨none, some ("Network Error: " ++ m), false⟩, calls)) :=
  generate_resolves_known_provider ⟨some "openai", none, [("openai", "sk-test")], none⟩
    backendAllDown RagFetch.notOk "q" (by decide)
